import Mathlib

/-!
Verification development for the Segment MCP server (a TypeScript API
client/gateway).  The development shallowly embeds the error-handling
utilities (`src/utils/errors.ts`), the response formatters
(`src/utils/formatters.ts`) and the HTTP request helpers of the Segment
client (`src/client.ts`) and proves the specified properties about them.

JavaScript runtime values are modelled by the inductive `JsVal`
(`undefined`, `null`, booleans, numbers, strings, arrays and plain
objects).  Numbers are modelled as integers extended with `NaN`
(`JsNum`); non-integer numerals never occur in the code under study.
-/

/-- JavaScript number restricted to the values this program manipulates:
integers and `NaN` (which `parseInt` produces on non-numeric input). -/
inductive JsNum where
  | nan : JsNum
  | int : Int → JsNum
deriving DecidableEq, Repr

/-- A JavaScript runtime value: `undefined`, `null`, a boolean, a number,
a string, an array, or a plain object (an insertion-ordered list of
key/value pairs, keys distinct as in a JS object literal). -/
inductive JsVal where
  | undefined : JsVal
  | null : JsVal
  | bool : Bool → JsVal
  | num : JsNum → JsVal
  | str : String → JsVal
  | arr : List JsVal → JsVal
  | obj : List (String × JsVal) → JsVal

/-- Property read `o[k]` on a JS object: the value of the first entry with
the given key, `undefined` when the key is absent. -/
def jsGet (o : List (String × JsVal)) (k : String) : JsVal :=
  match o.find? (fun p => p.1 == k) with
  | some p => p.2
  | none => .undefined

/-- Property read `v.k` through a possibly non-object value: reading a
property off anything but an object yields `undefined` (primitive
wrapper properties are never read by this code). -/
def jsGetProp (v : JsVal) (k : String) : JsVal :=
  match v with
  | .obj o => jsGet o k
  | _ => .undefined

/-- JavaScript truthiness. -/
def jsTruthy : JsVal → Bool
  | .undefined => false
  | .null => false
  | .bool b => b
  | .num .nan => false
  | .num (.int i) => !(i == 0)
  | .str s => !(s == "")
  | .arr _ => true
  | .obj _ => true

/-- The JS expression `a ?? b` (nullish coalescing). -/
def jsNullish (a b : JsVal) : JsVal :=
  match a with
  | .undefined => b
  | .null => b
  | v => v

/-- The JS expression `a || b` on values (truthy-or). -/
def jsOrVal (a b : JsVal) : JsVal :=
  if jsTruthy a then a else b

/-- Does the list `p` occur at the start of `l`? -/
def startsWithList : List Char → List Char → Bool
  | [], _ => true
  | _ :: _, [] => false
  | p :: ps, c :: cs => p == c && startsWithList ps cs

/-- Occurrence check used below. -/
def includesList : List Char → List Char → Bool
  | [], sub => sub.isEmpty
  | s :: rest, sub => startsWithList sub (s :: rest) || includesList rest sub

/-- The JS `s.includes(sub)` substring test. -/
def strIncludes (s sub : String) : Bool :=
  includesList s.data sub.data

/-- String conversion of a `JsNum` as JS `String(n)` produces it. -/
def jsNumToString : JsNum → String
  | .nan => "NaN"
  | .int i => toString i

mutual
/-- The JS `String(v)` conversion (also used by template literals). -/
def jsToString : JsVal → String
  | .undefined => "undefined"
  | .null => "null"
  | .bool b => cond b "true" "false"
  | .num n => jsNumToString n
  | .str s => s
  | .arr l => jsArrToString l
  | .obj _ => "[object Object]"

/-- `Array.prototype.toString`: elements joined by commas, with `null`
and `undefined` elements rendered as the empty string. -/
def jsArrToString : List JsVal → String
  | [] => ""
  | [v] => jsElemToString v
  | v :: rest => jsElemToString v ++ "," ++ jsArrToString rest

/-- One array element under `Array.prototype.toString`. -/
def jsElemToString : JsVal → String
  | .undefined => ""
  | .null => ""
  | v => jsToString v
end

/-- Hex digit (uppercase) for percent-encoding. -/
def hexDigitUpper (n : Nat) : Char :=
  if n < 10 then Char.ofNat (48 + n) else Char.ofNat (55 + n)

/-- Hex digit (lowercase) for `\uXXXX` escapes in JSON string output. -/
def hexDigitLower (n : Nat) : Char :=
  if n < 10 then Char.ofNat (48 + n) else Char.ofNat (87 + n)

/-- Four-digit lowercase hex, as in `JSON.stringify` control escapes. -/
def hex4 (n : Nat) : String :=
  String.mk [hexDigitLower (n / 4096 % 16), hexDigitLower (n / 256 % 16),
    hexDigitLower (n / 16 % 16), hexDigitLower (n % 16)]

/-- Escape one character as `JSON.stringify` does inside string output. -/
def jsonEscapeChar (c : Char) : String :=
  if c = '"' then "\\\""
  else if c = '\\' then "\\\\"
  else if c = '\n' then "\\n"
  else if c = '\r' then "\\r"
  else if c = '\t' then "\\t"
  else if c = '\x08' then "\\b"
  else if c = '\x0c' then "\\f"
  else if c.toNat < 32 then "\\u" ++ hex4 c.toNat
  else String.mk [c]

/-- Quote a string as `JSON.stringify` renders strings. -/
def jsonQuote (s : String) : String :=
  "\"" ++ String.join (s.data.map jsonEscapeChar) ++ "\""

/-- `n` levels of two-space indentation (the code always stringifies with
`JSON.stringify(value, null, 2)` or with no indent argument). -/
def jsonIndent (depth : Nat) : String :=
  String.join (List.replicate depth "  ")

mutual
/-- `JSON.stringify` on a value, at nesting depth `depth`; `compact` is
true for the two-argument `JSON.stringify(v)` form and false for
`JSON.stringify(v, null, 2)`.  `undefined` is omitted from object
members (see `jsonMembersOut`) and serializes as `null` inside arrays;
it never occurs at the top level in this code.  `NaN` serializes as
`null`. -/
def jsonStringifyAt (compact : Bool) (depth : Nat) : JsVal → String
  | .undefined => "null"
  | .null => "null"
  | .bool b => cond b "true" "false"
  | .num .nan => "null"
  | .num (.int i) => toString i
  | .str s => jsonQuote s
  | .arr [] => "[]"
  | .arr (v :: vs) =>
    if compact then
      "[" ++ String.intercalate "," (jsonItemsOut compact (depth + 1) (v :: vs)) ++ "]"
    else
      "[\n" ++
        String.intercalate ",\n"
          ((jsonItemsOut compact (depth + 1) (v :: vs)).map
            (fun s => jsonIndent (depth + 1) ++ s)) ++
        "\n" ++ jsonIndent depth ++ "]"
  | .obj m =>
    match jsonMembersOut compact (depth + 1) m with
    | [] => "\x7b\x7d"
    | out@(_ :: _) =>
      if compact then
        "\x7b" ++ String.intercalate "," out ++ "\x7d"
      else
        "\x7b\n" ++
          String.intercalate ",\n" (out.map (fun s => jsonIndent (depth + 1) ++ s)) ++
          "\n" ++ jsonIndent depth ++ "\x7d"

/-- Serialized array items. -/
def jsonItemsOut (compact : Bool) (depth : Nat) : List JsVal → List String
  | [] => []
  | v :: vs => jsonStringifyAt compact depth v :: jsonItemsOut compact depth vs

/-- Serialized object members; members whose value is `undefined` are
omitted, as `JSON.stringify` omits them. -/
def jsonMembersOut (compact : Bool) (depth : Nat) : List (String × JsVal) → List String
  | [] => []
  | (_, .undefined) :: rest => jsonMembersOut compact depth rest
  | (k, v) :: rest =>
    (jsonQuote k ++ (if compact then ":" else ": ") ++ jsonStringifyAt compact depth v)
      :: jsonMembersOut compact depth rest
end

/-- `JSON.stringify(v, null, 2)` as used for tool result bodies and the
fenced blocks of the Markdown renderer. -/
def jsonStringify (v : JsVal) : String :=
  jsonStringifyAt false 0 v

/-- `JSON.stringify(v)` as used for HTTP request bodies. -/
def jsonStringifyCompact (v : JsVal) : String :=
  jsonStringifyAt true 0 v

/-- JSON insignificant whitespace. -/
def isJsonWs (c : Char) : Bool :=
  c == ' ' || c == '\t' || c == '\n' || c == '\r'

/-- Skip insignificant whitespace. -/
def skipJsonWs (l : List Char) : List Char :=
  l.dropWhile isJsonWs

/-- Value of a hex digit, if any. -/
def hexVal (c : Char) : Option Nat :=
  if c.isDigit then some (c.toNat - 48)
  else if 'a' ≤ c && c ≤ 'f' then some (c.toNat - 87)
  else if 'A' ≤ c && c ≤ 'F' then some (c.toNat - 55)
  else none

/-- Body of a JSON string literal (after the opening quote), with an
accumulator of decoded characters in reverse. -/
def jsonStrBody (acc : List Char) : List Char → Option (String × List Char)
  | [] => none
  | '"' :: rest => some (String.mk acc.reverse, rest)
  | '\\' :: 'u' :: h1 :: h2 :: h3 :: h4 :: rest =>
    match hexVal h1, hexVal h2, hexVal h3, hexVal h4 with
    | some a, some b, some c, some d =>
      jsonStrBody (Char.ofNat (a * 4096 + b * 256 + c * 16 + d) :: acc) rest
    | _, _, _, _ => none
  | '\\' :: e :: rest =>
    if e = '"' then jsonStrBody ('"' :: acc) rest
    else if e = '\\' then jsonStrBody ('\\' :: acc) rest
    else if e = '/' then jsonStrBody ('/' :: acc) rest
    else if e = 'n' then jsonStrBody ('\n' :: acc) rest
    else if e = 't' then jsonStrBody ('\t' :: acc) rest
    else if e = 'r' then jsonStrBody ('\r' :: acc) rest
    else if e = 'b' then jsonStrBody ('\x08' :: acc) rest
    else if e = 'f' then jsonStrBody ('\x0c' :: acc) rest
    else none
  | c :: rest => jsonStrBody (c :: acc) rest

/-- Numeric value of a digit run. -/
def digitsToNat (l : List Char) : Nat :=
  l.foldl (fun a c => a * 10 + (c.toNat - 48)) 0

/-- A JSON number (modelled on integer literals only: the Segment APIs
and every input in this development use integral numbers). -/
def jsonNumberTok (l : List Char) : Option (JsVal × List Char) :=
  match l with
  | '-' :: rest =>
    match rest.span (·.isDigit) with
    | ([], _) => none
    | (d :: ds, after) => some (.num (.int (-(digitsToNat (d :: ds) : Int))), after)
  | _ =>
    match l.span (·.isDigit) with
    | ([], _) => none
    | (d :: ds, after) => some (.num (.int (digitsToNat (d :: ds) : Int)), after)

mutual
/-- Parse one JSON value; `fuel` bounds nesting (callers supply the input
length, which suffices since each nesting level consumes a character). -/
def jsonValueTok : Nat → List Char → Option (JsVal × List Char)
  | 0, _ => none
  | Nat.succ fuel, l =>
    match skipJsonWs l with
    | 'n' :: 'u' :: 'l' :: 'l' :: rest => some (.null, rest)
    | 't' :: 'r' :: 'u' :: 'e' :: rest => some (.bool true, rest)
    | 'f' :: 'a' :: 'l' :: 's' :: 'e' :: rest => some (.bool false, rest)
    | '"' :: rest => (jsonStrBody [] rest).map (fun p => (.str p.1, p.2))
    | '[' :: rest =>
      (match skipJsonWs rest with
       | ']' :: after => some (.arr [], after)
       | body =>
         match jsonValueTok fuel body with
         | none => none
         | some (v, r) =>
           match jsonArrTail fuel r with
           | none => none
           | some (vs, after) => some (.arr (v :: vs), after))
    | '\x7b' :: rest =>
      (match skipJsonWs rest with
       | '\x7d' :: after => some (.obj [], after)
       | body =>
         match jsonMemberTok fuel body with
         | none => none
         | some (kv, r) =>
           match jsonObjTail fuel r with
           | none => none
           | some (kvs, after) => some (.obj (kv :: kvs), after))
    | other => jsonNumberTok other

/-- Remaining elements of an array after the first. -/
def jsonArrTail : Nat → List Char → Option (List JsVal × List Char)
  | 0, _ => none
  | Nat.succ fuel, l =>
    match skipJsonWs l with
    | ']' :: after => some ([], after)
    | ',' :: rest =>
      (match jsonValueTok fuel rest with
       | none => none
       | some (v, r) =>
         match jsonArrTail fuel r with
         | none => none
         | some (vs, after) => some (v :: vs, after))
    | _ => none

/-- One `"key": value` member of an object. -/
def jsonMemberTok : Nat → List Char → Option ((String × JsVal) × List Char)
  | 0, _ => none
  | Nat.succ fuel, l =>
    match skipJsonWs l with
    | '"' :: rest =>
      (match jsonStrBody [] rest with
       | none => none
       | some (k, r) =>
         match skipJsonWs r with
         | ':' :: r2 =>
           (match jsonValueTok fuel r2 with
            | none => none
            | some (v, after) => some ((k, v), after))
         | _ => none)
    | _ => none

/-- Remaining members of an object after the first. -/
def jsonObjTail : Nat → List Char → Option (List (String × JsVal) × List Char)
  | 0, _ => none
  | Nat.succ fuel, l =>
    match skipJsonWs l with
    | '\x7d' :: after => some ([], after)
    | ',' :: rest =>
      (match jsonMemberTok fuel rest with
       | none => none
       | some (kv, r) =>
         match jsonObjTail fuel r with
         | none => none
         | some (kvs, after) => some (kv :: kvs, after))
    | _ => none
end

/-- `JSON.parse(s)` as an option: `none` models the thrown `SyntaxError`
(empty input, malformed input, or trailing garbage). -/
def jsonParse (s : String) : Option JsVal :=
  match jsonValueTok (s.data.length + 1) s.data with
  | none => none
  | some (v, rest) => if (skipJsonWs rest).isEmpty then some v else none

/-- `parseInt(s, 10)`: skip leading whitespace, optional sign, then the
longest leading digit run; `NaN` when there are no digits. -/
def jsParseInt (s : String) : JsNum :=
  match s.data.dropWhile (·.isWhitespace) with
  | '-' :: rest =>
    (match rest.span (·.isDigit) with
     | ([], _) => .nan
     | (d :: ds, _) => .int (-(digitsToNat (d :: ds) : Int)))
  | '+' :: rest =>
    (match rest.span (·.isDigit) with
     | ([], _) => .nan
     | (d :: ds, _) => .int (digitsToNat (d :: ds) : Int))
  | other =>
    (match other.span (·.isDigit) with
     | ([], _) => .nan
     | (d :: ds, _) => .int (digitsToNat (d :: ds) : Int))

/-- The base64 alphabet. -/
def base64Alphabet : List Char :=
  "ABCDEFGHIJKLMNOPQRSTUVWXYZabcdefghijklmnopqrstuvwxyz0123456789+/".data

/-- The `n`-th base64 digit. -/
def base64Digit (n : Nat) : Char :=
  base64Alphabet.getD n 'A'

/-- Base64-encode a byte sequence, with `=` padding. -/
def base64Bytes : List Nat → String
  | [] => ""
  | [a] =>
    String.mk [base64Digit (a / 4), base64Digit (a % 4 * 16)] ++ "=="
  | [a, b] =>
    String.mk [base64Digit (a / 4), base64Digit (a % 4 * 16 + b / 16),
      base64Digit (b % 16 * 4)] ++ "="
  | a :: b :: c :: rest =>
    String.mk [base64Digit (a / 4), base64Digit (a % 4 * 16 + b / 16),
      base64Digit (b % 16 * 4 + c / 64), base64Digit (c % 64)] ++ base64Bytes rest

/-- The platform `btoa`: base64 of the string's bytes (write keys are
ASCII, for which the Latin-1 view `btoa` takes coincides with UTF-8). -/
def btoa (s : String) : String :=
  base64Bytes ((s.data.flatMap String.utf8EncodeChar).map (fun b => b.toNat))

/-- Is a byte kept verbatim by `application/x-www-form-urlencoded`
serialization (`URLSearchParams.toString`)? -/
def formUnreservedByte (b : Nat) : Bool :=
  (48 ≤ b && b ≤ 57) || (65 ≤ b && b ≤ 90) || (97 ≤ b && b ≤ 122) ||
    b == 42 || b == 45 || b == 46 || b == 95

/-- Encode one byte for a query string: unreserved bytes verbatim, space
as `+`, anything else percent-encoded with uppercase hex. -/
def formEncodeByte (b : Nat) : String :=
  if formUnreservedByte b then String.mk [Char.ofNat b]
  else if b == 32 then "+"
  else String.mk ['%', hexDigitUpper (b / 16), hexDigitUpper (b % 16)]

/-- `application/x-www-form-urlencoded` encoding of one key or value. -/
def formEncode (s : String) : String :=
  String.join ((s.data.flatMap String.utf8EncodeChar).map (fun b => formEncodeByte b.toNat))

/-- Serialize a `URLSearchParams` entry list (`toString`). -/
def urlParamsRender (l : List (String × String)) : String :=
  String.intercalate "&" (l.map (fun p => formEncode p.1 ++ "=" ++ formEncode p.2))

/-- `URLSearchParams.set`: replace the value of the first entry with this
key and drop any later entries with it, or append when the key is new. -/
def urlParamsSet : List (String × String) → String → String → List (String × String)
  | [], k, v => [(k, v)]
  | (k0, v0) :: rest, k, v =>
    if k0 == k then (k, v) :: rest.filter (fun p => !(p.1 == k))
    else (k0, v0) :: urlParamsSet rest k v

/-- Which error class constructed a `SegmentApiErr` (standing in for the
JS prototype chain that `instanceof` inspects). -/
inductive ApiErrorClass where
  | base
  | rateLimit
  | authentication
  | notFound
  | validation
  | missingCredentials
deriving DecidableEq, Repr

/-- A constructed `SegmentApiError` object (`src/utils/errors.ts`).  The
subclass-only fields `retryAfterSeconds` (RateLimitError) and `details`
(ValidationError) are carried for every class and read only when the
class matches, mirroring the `instanceof`-guarded reads in the code. -/
structure SegmentApiErr where
  cls : ApiErrorClass
  name : String
  message : String
  statusCode : Option Nat
  code : String
  retryable : Bool
  retryAfterSeconds : JsNum
  details : List (String × List String)
deriving DecidableEq, Repr

/-- `new SegmentApiError(message, statusCode?, code?, retryable = false)`:
`code || 'SEGMENT_ERROR'` is a JS truthy-or, so an empty code string also
falls back to the default. -/
def segmentApiErrorNew (message : String) (statusCode : Option Nat) (code : Option String)
    (retryable : Bool) : SegmentApiErr :=
  { cls := .base
    name := "SegmentApiError"
    message := message
    statusCode := statusCode
    code := match code with
      | some c => if c == "" then "SEGMENT_ERROR" else c
      | none => "SEGMENT_ERROR"
    retryable := retryable
    retryAfterSeconds := .int 0
    details := [] }

/-- `new RateLimitError(message, retryAfterSeconds)`. -/
def rateLimitErrorNew (message : String) (retryAfterSeconds : JsNum) : SegmentApiErr :=
  { segmentApiErrorNew message (some 429) (some "RATE_LIMIT_EXCEEDED") true with
    cls := .rateLimit
    name := "RateLimitError"
    retryAfterSeconds := retryAfterSeconds }

/-- `new AuthenticationError(message)`. -/
def authenticationErrorNew (message : String) : SegmentApiErr :=
  { segmentApiErrorNew message (some 401) (some "AUTHENTICATION_FAILED") false with
    cls := .authentication
    name := "AuthenticationError" }

/-- `new NotFoundError(entityType, id)`. -/
def notFoundErrorNew (entityType id : String) : SegmentApiErr :=
  { segmentApiErrorNew (entityType ++ " with ID \x27" ++ id ++ "\x27 not found")
      (some 404) (some "NOT_FOUND") false with
    cls := .notFound
    name := "NotFoundError" }

/-- `new ValidationError(message, details = {})`. -/
def validationErrorNew (message : String) (details : List (String × List String)) :
    SegmentApiErr :=
  { segmentApiErrorNew message (some 400) (some "VALIDATION_ERROR") false with
    cls := .validation
    name := "ValidationError"
    details := details }

/-- `new MissingCredentialsError(requiredCredential)`. -/
def missingCredentialsErrorNew (requiredCredential : String) : SegmentApiErr :=
  { segmentApiErrorNew
      ("Missing required credential: " ++ requiredCredential ++
        ". Please provide it via request headers.")
      (some 401) (some "MISSING_CREDENTIALS") false with
    cls := .missingCredentials
    name := "MissingCredentialsError" }

/-- An arbitrary thrown JS value, as received by the `unknown`-typed
error utilities: a `SegmentApiError` instance, some other `Error`
instance (name, message, optional stack), or a non-`Error` value
(carried by its `String(...)` conversion). -/
inductive ErrValue where
  | segment : SegmentApiErr → ErrValue
  | plain : String → String → Option String → ErrValue
  | nonError : String → ErrValue
deriving DecidableEq, Repr

/-- `isRetryableError` (`src/utils/errors.ts`): a `SegmentApiError`
answers its own `retryable` flag; any other `Error` is retryable exactly
when its message mentions `network`, `timeout` or `ECONNRESET`; anything
else is not retryable. -/
def isRetryableError : ErrValue → Bool
  | .segment e => e.retryable
  | .plain _ message _ =>
    strIncludes message "network" || strIncludes message "timeout" ||
      strIncludes message "ECONNRESET"
  | .nonError _ => false

/-- The `details` mapping of a `ValidationError` as a JS object. -/
def detailsToJsVal (d : List (String × List String)) : JsVal :=
  .obj (d.map (fun p => (p.1, .arr (p.2.map .str))))

/-- `formatErrorForLogging` (`src/utils/errors.ts`): the flat log record.
An absent `statusCode` is the JS `undefined` member, which
`JSON.stringify` later omits; the `instanceof`-guarded spreads append
`retryAfterSeconds` and `details` for the matching subclasses. -/
def formatErrorForLogging : ErrValue → JsVal
  | .segment e =>
    .obj ([("name", .str e.name), ("message", .str e.message), ("code", .str e.code),
      ("statusCode", match e.statusCode with | some n => .num (.int n) | none => .undefined),
      ("retryable", .bool e.retryable)] ++
      (if e.cls = .rateLimit then [("retryAfterSeconds", .num e.retryAfterSeconds)]
      else []) ++
      (if e.cls = .validation then [("details", detailsToJsVal e.details)] else []))
  | .plain name message stack =>
    .obj [("name", .str name), ("message", .str message),
      ("stack", match stack with | some s => .str s | none => .undefined)]
  | .nonError s => .obj [("error", .str s)]

/-- An MCP tool response: a single text content item plus the optional
`isError` flag (absent on success, `true` on failure). -/
structure ToolResponse where
  content : List String
  isError : Option Bool
deriving DecidableEq, Repr

/-- `formatError` (`src/utils/formatters.ts`): a failed operation becomes
a normal result with `isError: true` whose text is the two-space-indented
JSON of `\x7b error, details \x7d`; the message gets the `Error: ` prefix and,
for retryable `SegmentApiError`s, the ` (retryable)` suffix. -/
def formatError (error : ErrValue) : ToolResponse :=
  { content :=
      [jsonStringify (.obj
        [("error", .str
          (match error with
           | .segment e => "Error: " ++ e.message ++ (if e.retryable then " (retryable)" else "")
           | .plain _ m _ => "Error: " ++ m
           | .nonError s => "Error: " ++ s)),
         ("details", formatErrorForLogging error)])]
    isError := some true }

/-- `str.charAt(0).toUpperCase() + str.slice(1)`. -/
def capitalize (s : String) : String :=
  match s.data with
  | [] => ""
  | c :: cs => String.mk (c.toUpper :: cs)

/-- `key.replace(/([A-Z])/g, ' $1')`: a space inserted before every
uppercase letter (including a leading one). -/
def insertSpacesBeforeUpper : List Char → List Char
  | [] => []
  | c :: cs => (if c.isUpper then [' ', c] else [c]) ++ insertSpacesBeforeUpper cs

/-- `.replace(/^./, c => c.toUpperCase())`: upcase the first character. -/
def upcaseFirstChar : List Char → List Char
  | [] => []
  | c :: cs => c.toUpper :: cs

/-- `String.prototype.trim`: drop whitespace from both ends. -/
def trimCharsWs (l : List Char) : List Char :=
  ((l.dropWhile Char.isWhitespace).reverse.dropWhile Char.isWhitespace).reverse

/-- `formatKey` (`src/utils/formatters.ts`): camelCase to Title Case. -/
def formatKey (key : String) : String :=
  String.mk (trimCharsWs (upcaseFirstChar (insertSpacesBeforeUpper key.data)))

/-- `entityType.replace(/s$/, '')`: drop one trailing `s` if present. -/
def stripTrailingS (s : String) : String :=
  match s.data.getLast? with
  | some c => if c = 's' then String.mk s.data.dropLast else s
  | none => s

/-- Optional chaining `v?.k`. -/
def jsOptChainProp (v : JsVal) (k : String) : JsVal :=
  match v with
  | .undefined => .undefined
  | .null => .undefined
  | w => jsGetProp w k

/-- Is this value the JS `undefined`? -/
def jsIsUndefined : JsVal → Bool
  | .undefined => true
  | _ => false

/-- `Object.keys` of an item cast to a record.  The first item of every
generic table in this program is a plain object; `Object.keys` of other
primitives (which returns `[]`, or index strings for arrays) is not
exercised and is modelled as `[]`. -/
def jsKeys : JsVal → List String
  | .obj o => o.map Prod.fst
  | _ => []

/-- `formatGenericTable` (`src/utils/formatters.ts`): columns are the
first five keys of the first item; each cell is `String(record[k] ?? '-')`. -/
def formatGenericTable (items : List JsVal) : String :=
  match items with
  | [] => "_No items_"
  | first :: _ =>
    let keys := (jsKeys first).take 5
    String.intercalate "\n"
      (("| " ++ String.intercalate " | " keys ++ " |")
        :: ("|" ++ String.intercalate "|" (keys.map (fun _ => "---")) ++ "|")
        :: items.map (fun it =>
          "| " ++
            String.intercalate " | "
              (keys.map (fun k => jsToString (jsNullish (jsGetProp it k) (.str "-")))) ++
          " |"))

/-- `formatArrayAsMarkdown` delegates to the generic table. -/
def formatArrayAsMarkdown (data : List JsVal) (_entityType : String) : String :=
  formatGenericTable data

/-- `formatSourcesTable`. -/
def formatSourcesTable (sources : List JsVal) : String :=
  String.intercalate "\n"
    ("| ID | Name | Slug | Enabled |" :: "|---|---|---|---|"
      :: sources.map (fun s =>
        "| " ++ jsToString (jsGetProp s "id") ++ " | " ++ jsToString (jsGetProp s "name") ++
        " | " ++ jsToString (jsGetProp s "slug") ++ " | " ++
        (if jsTruthy (jsGetProp s "enabled") then "Yes" else "No") ++ " |"))

/-- `formatDestinationsTable`. -/
def formatDestinationsTable (dests : List JsVal) : String :=
  String.intercalate "\n"
    ("| ID | Name | Type | Enabled |" :: "|---|---|---|---|"
      :: dests.map (fun d =>
        "| " ++ jsToString (jsGetProp d "id") ++ " | " ++ jsToString (jsGetProp d "name") ++
        " | " ++ jsToString (jsOrVal (jsOptChainProp (jsGetProp d "metadata") "name") (.str "-")) ++
        " | " ++ (if jsTruthy (jsGetProp d "enabled") then "Yes" else "No") ++ " |"))

/-- `formatWarehousesTable`. -/
def formatWarehousesTable (whs : List JsVal) : String :=
  String.intercalate "\n"
    ("| ID | Name | Type | Enabled |" :: "|---|---|---|---|"
      :: whs.map (fun w =>
        "| " ++ jsToString (jsGetProp w "id") ++ " | " ++
        jsToString (jsOrVal (jsGetProp w "name") (.str "-")) ++ " | " ++
        jsToString (jsOrVal (jsOptChainProp (jsGetProp w "metadata") "name") (.str "-")) ++
        " | " ++ (if jsTruthy (jsGetProp w "enabled") then "Yes" else "No") ++ " |"))

/-- `formatTrackingPlansTable`. -/
def formatTrackingPlansTable (plans : List JsVal) : String :=
  String.intercalate "\n"
    ("| ID | Name | Type | Updated |" :: "|---|---|---|---|"
      :: plans.map (fun p =>
        "| " ++ jsToString (jsGetProp p "id") ++ " | " ++ jsToString (jsGetProp p "name") ++
        " | " ++ jsToString (jsGetProp p "type") ++ " | " ++
        jsToString (jsOrVal (jsGetProp p "updatedAt") (.str "-")) ++ " |"))

/-- `formatFunctionsTable`. -/
def formatFunctionsTable (fns : List JsVal) : String :=
  String.intercalate "\n"
    ("| ID | Name | Type | Deployed |" :: "|---|---|---|---|"
      :: fns.map (fun f =>
        "| " ++ jsToString (jsGetProp f "id") ++ " | " ++
        jsToString (jsGetProp f "displayName") ++ " | " ++
        jsToString (jsGetProp f "resourceType") ++ " | " ++
        jsToString (jsOrVal (jsGetProp f "deployedAt") (.str "Not deployed")) ++ " |"))

/-- `formatAudiencesTable`. -/
def formatAudiencesTable (auds : List JsVal) : String :=
  String.intercalate "\n"
    ("| ID | Name | Key | Status | Enabled |" :: "|---|---|---|---|---|"
      :: auds.map (fun a =>
        "| " ++ jsToString (jsGetProp a "id") ++ " | " ++ jsToString (jsGetProp a "name") ++
        " | " ++ jsToString (jsGetProp a "key") ++ " | " ++
        jsToString (jsOrVal (jsGetProp a "status") (.str "-")) ++ " | " ++
        (if jsTruthy (jsGetProp a "enabled") then "Yes" else "No") ++ " |"))

/-- `formatComputedTraitsTable`. -/
def formatComputedTraitsTable (traits : List JsVal) : String :=
  String.intercalate "\n"
    ("| ID | Name | Key | Status | Enabled |" :: "|---|---|---|---|---|"
      :: traits.map (fun t =>
        "| " ++ jsToString (jsGetProp t "id") ++ " | " ++ jsToString (jsGetProp t "name") ++
        " | " ++ jsToString (jsGetProp t "key") ++ " | " ++
        jsToString (jsOrVal (jsGetProp t "status") (.str "-")) ++ " | " ++
        (if jsTruthy (jsGetProp t "enabled") then "Yes" else "No") ++ " |"))

/-- `formatTransformationsTable`. -/
def formatTransformationsTable (ts : List JsVal) : String :=
  String.intercalate "\n"
    ("| ID | Name | Source ID | Enabled |" :: "|---|---|---|---|"
      :: ts.map (fun t =>
        "| " ++ jsToString (jsGetProp t "id") ++ " | " ++ jsToString (jsGetProp t "name") ++
        " | " ++ jsToString (jsGetProp t "sourceId") ++ " | " ++
        (if jsTruthy (jsGetProp t "enabled") then "Yes" else "No") ++ " |"))

/-- The per-entity-type table dispatch of `formatPaginatedAsMarkdown`. -/
def entityTable (entityType : String) (items : List JsVal) : String :=
  if entityType == "sources" then formatSourcesTable items
  else if entityType == "destinations" then formatDestinationsTable items
  else if entityType == "warehouses" then formatWarehousesTable items
  else if entityType == "tracking-plans" then formatTrackingPlansTable items
  else if entityType == "functions" then formatFunctionsTable items
  else if entityType == "audiences" then formatAudiencesTable items
  else if entityType == "computed-traits" then formatComputedTraitsTable items
  else if entityType == "transformations" then formatTransformationsTable items
  else formatGenericTable items

/-- The `data` items array of a paginated response object (guarded by the
`isPaginatedResponse` check before this function is called). -/
def paginatedItems (fields : List (String × JsVal)) : List JsVal :=
  match jsGet fields "data" with
  | .arr l => l
  | _ => []

/-- `formatPaginatedAsMarkdown` (`src/utils/formatters.ts`). -/
def formatPaginatedAsMarkdown (fields : List (String × JsVal)) (entityType : String) : String :=
  String.intercalate "\n"
    (["## " ++ capitalize entityType, ""] ++
      [(if jsIsUndefined (jsOptChainProp (jsGet fields "pagination") "totalEntries") then
          "**Showing:** " ++ toString (paginatedItems fields).length
        else
          "**Total:** " ++ jsToString (jsOptChainProp (jsGet fields "pagination") "totalEntries") ++
            " | **Showing:** " ++ toString (paginatedItems fields).length)] ++
      (if jsTruthy (jsOptChainProp (jsGet fields "pagination") "next") then
        ["**More available:** Yes (cursor: \x60" ++
          jsToString (jsOptChainProp (jsGet fields "pagination") "next") ++ "\x60)"]
      else []) ++
      [""] ++
      (if (paginatedItems fields).isEmpty then ["_No items found._"]
      else [entityTable entityType (paginatedItems fields)]))

/-- The per-field lines of `formatObjectAsMarkdown`: `null`/`undefined`
fields are skipped, nested objects and arrays become a labelled fenced
JSON block, scalars become a single bold line. -/
def objFieldLines (kv : String × JsVal) : List String :=
  match kv.2 with
  | .null => []
  | .undefined => []
  | .obj o =>
    ["**" ++ formatKey kv.1 ++ ":**", "\x60\x60\x60json", jsonStringify (.obj o),
      "\x60\x60\x60"]
  | .arr l =>
    ["**" ++ formatKey kv.1 ++ ":**", "\x60\x60\x60json", jsonStringify (.arr l),
      "\x60\x60\x60"]
  | v => ["**" ++ formatKey kv.1 ++ ":** " ++ jsToString v]

/-- `formatObjectAsMarkdown` (`src/utils/formatters.ts`). -/
def formatObjectAsMarkdown (fields : List (String × JsVal)) (entityType : String) : String :=
  String.intercalate "\n"
    (["## " ++ capitalize (stripTrailingS entityType), ""] ++ (fields.map objFieldLines).flatten)

/-- `formatAsMarkdown`: dispatch on the shape of the decoded value. -/
def formatAsMarkdown (data : JsVal) (entityType : String) : String :=
  match data with
  | .obj fields =>
    (match jsGet fields "data" with
     | .arr _ => formatPaginatedAsMarkdown fields entityType
     | _ => formatObjectAsMarkdown fields entityType)
  | .arr l => formatArrayAsMarkdown l entityType
  | other => jsToString other

/-- `formatResponse`: Markdown or verbatim two-space-indented JSON. -/
def formatResponse (data : JsVal) (format : String) (entityType : String) : ToolResponse :=
  if format == "markdown" then
    { content := [formatAsMarkdown data entityType], isError := none }
  else
    { content := [jsonStringify data], isError := none }

/-- Tenant credentials parsed from request headers (`src/types/env.ts`);
each is either absent or a string (possibly empty, which JS treats as
falsy exactly like absence in the checks below). -/
structure TenantCredentials where
  writeKey : Option String
  accessToken : Option String
  trackingBaseUrl : Option String
  publicApiBaseUrl : Option String

/-- Is an optional string falsy in JS (`!x`): absent or empty? -/
def jsOptStrFalsy : Option String → Bool
  | none => true
  | some s => s == ""

/-- Truthy-or on an optional string (`x || d`). -/
def jsOptStrOr (x : Option String) (d : String) : String :=
  match x with
  | none => d
  | some s => if s == "" then d else s

/-- The outbound HTTP request handed to `fetch`. -/
structure HttpRequest where
  url : String
  method : String
  headers : List (String × String)
  body : Option String
deriving DecidableEq, Repr

/-- The raw HTTP response the client inspects: the status code, the
`Retry-After` header (`headers.get` returns `null`, here `none`, when
absent) and the body text. -/
structure HttpResponse where
  status : Nat
  retryAfter : Option String
  body : String
deriving DecidableEq, Repr

/-- `response.ok`: status in the 2xx range. -/
def respOk (r : HttpResponse) : Bool :=
  200 ≤ r.status && r.status ≤ 299

/-- Outcome of one embedded request: a decoded value (`none` for the 204
no-content case), a thrown classified error, or the rejection of
`response.json()` on an unparseable success body (a platform
`SyntaxError` whose message is runtime-defined; the offending body is
recorded). -/
inductive ReqOutcome where
  | ok : Option JsVal → ReqOutcome
  | err : ErrValue → ReqOutcome
  | parseFailure : String → ReqOutcome

/-- The `retryAfter ? parseInt(retryAfter, 10) : 60` expression shared by
both 429 branches: the ternary tests JS truthiness, so only an absent or
empty header falls back to 60; any other text goes through `parseInt`. -/
def retryAfterSecondsOf (retryAfter : Option String) : JsNum :=
  match retryAfter with
  | none => .int 60
  | some s => if s == "" then .int 60 else jsParseInt s

/-- `getTrackingHeaders` (`src/client.ts`): fail with
`MissingCredentialsError` when no write key is configured, else HTTP
Basic with an empty password. -/
def getTrackingHeaders (c : TenantCredentials) : Except SegmentApiErr (List (String × String)) :=
  match c.writeKey with
  | none => .error (missingCredentialsErrorNew "X-Segment-Write-Key")
  | some k =>
    if k == "" then .error (missingCredentialsErrorNew "X-Segment-Write-Key")
    else
      .ok [("Authorization", "Basic " ++ btoa (k ++ ":")),
        ("Content-Type", "application/json")]

/-- `getPublicApiHeaders` (`src/client.ts`): fail with
`MissingCredentialsError` when no access token is configured, else a
bearer token. -/
def getPublicApiHeaders (c : TenantCredentials) : Except SegmentApiErr (List (String × String)) :=
  match c.accessToken with
  | none => .error (missingCredentialsErrorNew "X-Segment-Access-Token")
  | some t =>
    if t == "" then .error (missingCredentialsErrorNew "X-Segment-Access-Token")
    else
      .ok [("Authorization", "Bearer " ++ t), ("Content-Type", "application/json")]

/-- The error-body message extraction of `trackingRequest`:
`errorJson.message || errorJson.error || defaultMsg`, with the default
used when the body fails to parse as JSON. -/
def trackingErrorMessage (body : String) (defaultMsg : String) : String :=
  match jsonParse body with
  | none => defaultMsg
  | some j => jsToString (jsOrVal (jsGetProp j "message")
      (jsOrVal (jsGetProp j "error") (.str defaultMsg)))

/-- `errorJson.errors?.[0]?.message`: optional-chained first element of
the `errors` array.  Indexing `[0]` on a non-array object reads its
`"0"` property; other primitives are not exercised here. -/
def publicErrorsFirstMessage (j : JsVal) : JsVal :=
  match jsGetProp j "errors" with
  | .arr (x :: _) => jsOptChainProp x "message"
  | .arr [] => .undefined
  | .obj o => jsOptChainProp (jsGet o "0") "message"
  | _ => .undefined

/-- The error-body message extraction of `publicApiRequest`:
`errorJson.errors?.[0]?.message || errorJson.message || errorJson.error
|| defaultMsg`. -/
def publicErrorMessage (body : String) (defaultMsg : String) : String :=
  match jsonParse body with
  | none => defaultMsg
  | some j => jsToString (jsOrVal (publicErrorsFirstMessage j)
      (jsOrVal (jsGetProp j "message") (jsOrVal (jsGetProp j "error") (.str defaultMsg))))

/-- The response classification of `trackingRequest` (`src/client.ts`):
429, then 401/403, then any non-2xx with body-derived message, then the
JSON decode of the success body (there is no 204 carve-out on the
tracking path). -/
def trackingClassify (r : HttpResponse) : ReqOutcome :=
  if r.status == 429 then
    .err (.segment (rateLimitErrorNew "Rate limit exceeded" (retryAfterSecondsOf r.retryAfter)))
  else if r.status == 401 || r.status == 403 then
    .err (.segment (authenticationErrorNew "Authentication failed. Check your write key."))
  else if !(respOk r) then
    .err (.segment (segmentApiErrorNew
      (trackingErrorMessage r.body ("Tracking API error: " ++ toString r.status))
      (some r.status) none false))
  else
    match jsonParse r.body with
    | some j => .ok (some j)
    | none => .parseFailure r.body

/-- The response classification of `publicApiRequest` (`src/client.ts`):
429, then 401/403, then any non-2xx with body-derived message, then 204
as no value, then the JSON decode of the success body. -/
def publicApiClassify (r : HttpResponse) : ReqOutcome :=
  if r.status == 429 then
    .err (.segment (rateLimitErrorNew "Rate limit exceeded" (retryAfterSecondsOf r.retryAfter)))
  else if r.status == 401 || r.status == 403 then
    .err (.segment (authenticationErrorNew "Authentication failed. Check your access token."))
  else if !(respOk r) then
    .err (.segment (segmentApiErrorNew
      (publicErrorMessage r.body ("Public API error: " ++ toString r.status))
      (some r.status) none false))
  else if r.status == 204 then
    .ok none
  else
    match jsonParse r.body with
    | some j => .ok (some j)
    | none => .parseFailure r.body

/-- The constructor-resolved tracking base URL:
`credentials.trackingBaseUrl || TRACKING_API_BASE_URL`. -/
def trackingBase (c : TenantCredentials) : String :=
  jsOptStrOr c.trackingBaseUrl "https://api.segment.io/v1"

/-- The constructor-resolved public API base URL:
`credentials.publicApiBaseUrl || PUBLIC_API_BASE_URL`. -/
def publicApiBase (c : TenantCredentials) : String :=
  jsOptStrOr c.publicApiBaseUrl "https://api.segmentapis.com"

/-- `trackingRequest` (`src/client.ts`), with the network modelled as a
`respond` oracle; the second component counts `fetch` invocations.  The
header construction is an argument of the `fetch` call, so its
`MissingCredentialsError` is thrown before any network activity. -/
def trackingRequest (c : TenantCredentials) (respond : HttpRequest → HttpResponse)
    (endpoint : String) (body : JsVal) : ReqOutcome × Nat :=
  match getTrackingHeaders c with
  | .error e => (.err (.segment e), 0)
  | .ok hdrs =>
    (trackingClassify (respond
      { url := trackingBase c ++ endpoint
        method := "POST"
        headers := hdrs
        body := some (jsonStringifyCompact body) }), 1)

/-- The per-call options of `publicApiRequest` (`RequestInit`). -/
structure RequestOptions where
  method : Option String
  body : Option String
  headers : List (String × String)

/-- Merge of `\x7b ...base, ...extra \x7d` header objects: entries of
`extra` override same-keyed entries of `base` and otherwise append. -/
def mergeHeaders (base extra : List (String × String)) : List (String × String) :=
  extra.foldl (fun acc p => urlParamsSet acc p.1 p.2) base

/-- `publicApiRequest` (`src/client.ts`), with the network modelled as a
`respond` oracle; the second component counts `fetch` invocations.  The
spread `...this.getPublicApiHeaders()` is evaluated while building the
`fetch` argument, so its `MissingCredentialsError` precedes any network
activity. -/
def publicApiRequest (c : TenantCredentials) (respond : HttpRequest → HttpResponse)
    (endpoint : String) (options : RequestOptions) : ReqOutcome × Nat :=
  match getPublicApiHeaders c with
  | .error e => (.err (.segment e), 0)
  | .ok hdrs =>
    (publicApiClassify (respond
      { url := publicApiBase c ++ endpoint
        method := options.method.getD "GET"
        headers := mergeHeaders hdrs options.headers
        body := options.body }), 1)

/-- `buildQueryString` (`src/client.ts`): skip `undefined` and `null`
values, `String(...)` the rest into a `URLSearchParams`, and prepend `?`
only when the serialization is non-empty. -/
def buildQueryString (params : Option (List (String × JsVal))) : String :=
  match params with
  | none => ""
  | some l =>
    let qp := l.foldl (fun acc kv =>
      match kv.2 with
      | .undefined => acc
      | .null => acc
      | v => urlParamsSet acc kv.1 (jsToString v)) []
    let qs := urlParamsRender qp
    if qs == "" then "" else "?" ++ qs

/-- The thrown value of an outcome: a `parseFailure` surfaces as the
platform `SyntaxError`, whose message and stack are runtime-defined and
therefore supplied as parameters. -/
def outcomeToThrown (jsonMsgOf : String → String) (jsonStackOf : String → Option String) :
    ReqOutcome → Except ErrValue (Option JsVal)
  | .ok v => .ok v
  | .err e => .error e
  | .parseFailure body => .error (.plain "SyntaxError" (jsonMsgOf body) (jsonStackOf body))

/-- The `try/catch` wrapper every registered tool uses around a client
call: a thrown error is converted by `formatError` into a normal result
instead of propagating to the protocol layer. -/
def toolWrap (r : Except ErrValue (Option JsVal)) (onOk : Option JsVal → ToolResponse) :
    ToolResponse :=
  match r with
  | .ok v => onOk v
  | .error e => formatError e

/-- The error constructions the repository performs: every `new ...Error`
site of `src/client.ts` plus the constructors the error module exports.
The two base-class sites (`new SegmentApiError(message, response.status)`)
supply no `code` and leave `retryable` at its `false` default; no call
site passes `retryable` explicitly. -/
inductive RepoConstructed : SegmentApiErr → Prop where
  | base (message : String) (status : Nat) :
    RepoConstructed (segmentApiErrorNew message (some status) none false)
  | rate (message : String) (seconds : JsNum) :
    RepoConstructed (rateLimitErrorNew message seconds)
  | auth (message : String) :
    RepoConstructed (authenticationErrorNew message)
  | notFound (entityType id : String) :
    RepoConstructed (notFoundErrorNew entityType id)
  | validation (message : String) (details : List (String × List String)) :
    RepoConstructed (validationErrorNew message details)
  | missing (requiredCredential : String) :
    RepoConstructed (missingCredentialsErrorNew requiredCredential)

/-- Is a value `undefined` or `null` (the values `buildQueryString`
filters out)? -/
def jsIsNullish : JsVal → Bool
  | .undefined => true
  | .null => true
  | _ => false

/-- Specification-side key conversion, following the specification text:
a space is inserted before each INTERNAL uppercase letter (the first
character, even when uppercase, gets none), then the first character is
capitalized. -/
def titleCaseKeySpec (k : String) : String :=
  match k.data with
  | [] => ""
  | c :: cs => String.mk (upcaseFirstChar (c :: insertSpacesBeforeUpper cs))

/-- Specification-side field rendering for a single object, following
the specification text: `null`/absent fields are omitted, nested
objects/arrays become a labelled fenced block with their structured
serialization, scalars become one `**Key:** value` line with the key in
spaced Title Case. -/
def specObjFieldLines (kv : String × JsVal) : List String :=
  match kv.2 with
  | .null => []
  | .undefined => []
  | .obj o =>
    ["**" ++ titleCaseKeySpec kv.1 ++ ":**", "\x60\x60\x60json", jsonStringify (.obj o),
      "\x60\x60\x60"]
  | .arr l =>
    ["**" ++ titleCaseKeySpec kv.1 ++ ":**", "\x60\x60\x60json", jsonStringify (.arr l),
      "\x60\x60\x60"]
  | v => ["**" ++ titleCaseKeySpec kv.1 ++ ":** " ++ jsToString v]

/-- Specification-side error text of a failed operation: the message with
the `Error: ` prefix and the ` (retryable)` suffix exactly when the
classified error is retryable. -/
def claimErrorText (e : SegmentApiErr) : String :=
  "Error: " ++ e.message ++ (if e.retryable then " (retryable)" else "")

/-- Specification-side log record: the flat mapping
`name, message, code, statusCode, retryable`, extended with
`retryAfterSeconds` for the rate-limited kind and `details` for the
invalid-input kind. -/
def claimLogRecord (e : SegmentApiErr) : JsVal :=
  .obj ([("name", .str e.name), ("message", .str e.message), ("code", .str e.code),
    ("statusCode", match e.statusCode with | some n => .num (.int n) | none => .undefined),
    ("retryable", .bool e.retryable)] ++
    (if e.cls = .rateLimit then [("retryAfterSeconds", .num e.retryAfterSeconds)] else []) ++
    (if e.cls = .validation then [("details", detailsToJsVal e.details)] else []))

/-- A character for which the code-side key conversion (space insertion,
first-character upcasing, trim) agrees with the specified camelCase to
Title Case conversion: not whitespace, still not whitespace after
upcasing, and fixed by `toUpper` when already uppercase.  Every
character of a camelCase identifier (ASCII letters and digits)
satisfies this. -/
def titleSafeChar (c : Char) : Bool :=
  !c.isWhitespace && !(c.toUpper.isWhitespace) && (!c.isUpper || c.toUpper == c)

/-- Specification-side rendering of an empty paginated collection: the
heading from the resource kind, the summary line with count 0 (with the
total when `totalEntries` is present), the more-available line when a
`next` cursor is set, and the literal no-items line. -/
def specEmptyCollectionLines (fields : List (String × JsVal)) (et : String) : List String :=
  ["## " ++ capitalize et, "",
    (if jsIsUndefined (jsOptChainProp (jsGet fields "pagination") "totalEntries") then
      "**Showing:** 0"
    else
      "**Total:** " ++ jsToString (jsOptChainProp (jsGet fields "pagination") "totalEntries") ++
        " | **Showing:** 0")] ++
  (if jsTruthy (jsOptChainProp (jsGet fields "pagination") "next") then
    ["**More available:** Yes (cursor: \x60" ++
      jsToString (jsOptChainProp (jsGet fields "pagination") "next") ++ "\x60)"]
  else []) ++
  ["", "_No items found._"]

/-- Specification-side cell of the generic table: the stringified value,
with a missing (`undefined`) or `null` value rendered as `-`. -/
def specGenericCell (it : JsVal) (k : String) : String :=
  jsToString (jsNullish (jsGetProp it k) (.str "-"))

/-- Specification-side generic table: a header of the given columns, a
separator, and one row per item (the first included). -/
def specGenericTableLines (keys : List String) (items : List JsVal) : List String :=
  ("| " ++ String.intercalate " | " keys ++ " |")
    :: ("|" ++ String.intercalate "|" (keys.map (fun _ => "---")) ++ "|")
    :: items.map (fun it =>
      "| " ++ String.intercalate " | " (keys.map (specGenericCell it)) ++ " |")

/-- For every error the repository constructs, the `retryable` flag holds
exactly when the constructing class is the rate-limit one. -/
theorem repoConstructed_retryable_iff (e : SegmentApiErr) (h : RepoConstructed e) :
    e.retryable = true ↔ e.cls = .rateLimit := by
  cases h <;>
    simp [segmentApiErrorNew, rateLimitErrorNew, authenticationErrorNew, notFoundErrorNew,
      validationErrorNew, missingCredentialsErrorNew]

/-- C1: for every error value (with any `SegmentApiError` inside it one
the repository constructs), `isRetryableError` answers true iff the
error is a rate-limited API error, or a plain transport-level `Error`
whose message mentions `network`, `timeout` or `ECONNRESET`; every other
value — authentication, not-found, validation, missing-credential and
generic API errors included — is reported non-retryable. -/
theorem isRetryable_iff_rateLimited_or_transport (e : ErrValue)
    (h : ∀ a, e = .segment a → RepoConstructed a) :
    isRetryableError e = true ↔
      ((∃ a, e = .segment a ∧ a.cls = .rateLimit) ∨
       (∃ n m st, e = .plain n m st ∧
         (strIncludes m "network" = true ∨ strIncludes m "timeout" = true ∨
          strIncludes m "ECONNRESET" = true))) := by
  cases e with
  | segment a =>
    have ha := repoConstructed_retryable_iff a (h a rfl)
    simp [isRetryableError, ha]
  | plain n m st =>
    simp only [isRetryableError, Bool.or_eq_true, or_assoc]
    constructor
    · intro hh
      exact Or.inr ⟨n, m, st, rfl, hh⟩
    · intro hh
      rcases hh with ⟨a, ha, _⟩ | ⟨n1, m1, st1, he, hh⟩
      · exact absurd ha (by simp)
      · injection he with h1 h2 h3
        rw [h2]
        exact hh
  | nonError s =>
    simp [isRetryableError]

/-- Witness for C1 at a concrete rate-limited error. -/
theorem isRetryable_iff_rateLimited_or_transport_witness :
    isRetryableError (.segment (rateLimitErrorNew "Rate limit exceeded" (.int 30))) = true := by
  refine (isRetryable_iff_rateLimited_or_transport _ ?_).mpr ?_
  · intro a ha
    injection ha with hh
    rw [← hh]
    exact RepoConstructed.rate _ _
  · exact Or.inl ⟨_, rfl, rfl⟩

/-- C6: for every error value the repository constructs, the `retryable`
flag is fully determined by the error kind: it is true exactly for the
rate-limited kind, and no construction path the repository uses sets it
independently. -/
theorem retryable_pure_function_of_kind (e : SegmentApiErr) (h : RepoConstructed e) :
    e.retryable = true ↔ e.cls = .rateLimit :=
  repoConstructed_retryable_iff e h

/-- Witness for C6 at a concrete missing-credential error. -/
theorem retryable_pure_function_of_kind_witness :
    (missingCredentialsErrorNew "X-Segment-Write-Key").retryable = false := by
  have h := retryable_pure_function_of_kind (missingCredentialsErrorNew "X-Segment-Write-Key")
    (RepoConstructed.missing "X-Segment-Write-Key")
  by_contra hc
  rw [Bool.not_eq_false] at hc
  exact absurd (h.mp hc) (by decide)

/-- C2 counterexample: for status 429 with `Retry-After: abc` (a
non-integer value), classification produces `retryAfterSeconds = NaN`
(the `parseInt` result), not the claimed default 60: the ternary only
falls back to 60 for an absent or empty header. -/
theorem status429_nonInteger_retryAfter_counterexample :
    publicApiClassify { status := 429, retryAfter := some "abc", body := "" } =
      .err (.segment (rateLimitErrorNew "Rate limit exceeded" JsNum.nan)) ∧
    (rateLimitErrorNew "Rate limit exceeded" JsNum.nan).retryAfterSeconds ≠ JsNum.int 60 := by
  exact ⟨rfl, by decide⟩

/-- C2 (amended): for every response with status 429, classification
produces a rate-limited error with `retryable = true` whose
`retryAfterSeconds` is the `Retry-After` header run through `parseInt`
when the header is present and non-empty (the header's leading integer,
or `NaN` when it has none), and 60 when the header is absent or empty. -/
theorem status429_rateLimited (r : HttpResponse) (h : r.status = 429) :
    publicApiClassify r =
      .err (.segment (rateLimitErrorNew "Rate limit exceeded"
        (match r.retryAfter with
         | none => JsNum.int 60
         | some s => if s == "" then JsNum.int 60 else jsParseInt s))) ∧
    (∀ n : JsNum, (rateLimitErrorNew "Rate limit exceeded" n).retryable = true) := by
  constructor
  · cases hr : r.retryAfter with
    | none => simp [publicApiClassify, h, retryAfterSecondsOf, hr]
    | some s => simp [publicApiClassify, h, retryAfterSecondsOf, hr]
  · intro n
    rfl

/-- Witness for C2 at the specified example `Retry-After: 30`. -/
theorem status429_rateLimited_witness :
    publicApiClassify { status := 429, retryAfter := some "30", body := "" } =
      .err (.segment (rateLimitErrorNew "Rate limit exceeded" (JsNum.int 30))) := by
  exact (status429_rateLimited { status := 429, retryAfter := some "30", body := "" } rfl).1

/-- C3: on either API surface, an absent credential makes the operation
fail with a `MissingCredentialsError` whose message names the missing
header, and the `fetch` oracle is invoked zero times — the failure
happens while the request is being assembled, before any network
activity. -/
theorem missingCredential_failsFast (c : TenantCredentials)
    (respond : HttpRequest → HttpResponse) (endpoint : String) (body : JsVal)
    (options : RequestOptions) :
    (c.writeKey = none →
      trackingRequest c respond endpoint body =
        (.err (.segment (missingCredentialsErrorNew "X-Segment-Write-Key")), 0)) ∧
    (c.accessToken = none →
      publicApiRequest c respond endpoint options =
        (.err (.segment (missingCredentialsErrorNew "X-Segment-Access-Token")), 0)) ∧
    strIncludes (missingCredentialsErrorNew "X-Segment-Write-Key").message
      "X-Segment-Write-Key" = true ∧
    strIncludes (missingCredentialsErrorNew "X-Segment-Access-Token").message
      "X-Segment-Access-Token" = true := by
  refine ⟨?_, ?_, by rfl, by rfl⟩
  · intro h
    simp [trackingRequest, getTrackingHeaders, h]
  · intro h
    simp [publicApiRequest, getPublicApiHeaders, h]

/-- Witness for C3 at concrete empty credentials and a live oracle. -/
theorem missingCredential_failsFast_witness :
    trackingRequest
      { writeKey := none, accessToken := none, trackingBaseUrl := none,
        publicApiBaseUrl := none }
      (fun _ => { status := 200, retryAfter := none, body := "\x7b\x7d" })
      "/track" (.obj []) =
      (.err (.segment (missingCredentialsErrorNew "X-Segment-Write-Key")), 0) := by
  exact (missingCredential_failsFast _ _ "/track" (.obj [])
    { method := none, body := none, headers := [] }).1 rfl

/-- C4 counterexample: a 200 response with the non-JSON body `not json`
does not yield a `Generic` (or any) `SegmentApiError`: `response.json()`
rejects, and `publicApiRequest` propagates the platform parse failure
unwrapped. -/
theorem parse_failure_not_generic_counterexample :
    publicApiClassify { status := 200, retryAfter := none, body := "not json" } =
      .parseFailure "not json" ∧
    ¬ ∃ e : SegmentApiErr,
      publicApiClassify { status := 200, retryAfter := none, body := "not json" } =
        .err (.segment e) := by
  refine ⟨rfl, ?_⟩
  rintro ⟨e, he⟩
  have hp : publicApiClassify { status := 200, retryAfter := none, body := "not json" } =
      ReqOutcome.parseFailure "not json" := rfl
  rw [hp] at he
  exact ReqOutcome.noConfusion he

/-- C4 (amended): for every 2xx, non-204 response whose body is not
valid JSON, the request propagates the runtime JSON parse failure (a
plain `SyntaxError`, not a `Generic` Segment error); the registered
tools' `try/catch` then converts it into a normal, non-exceptional
result with `isError = true` whose text carries the diagnostic message —
so the caller never crashes. -/
theorem parse_failure_caught_nonexceptional (r : HttpResponse)
    (hlo : 200 ≤ r.status) (hhi : r.status ≤ 299) (h204 : r.status ≠ 204)
    (hbody : jsonParse r.body = none)
    (jsonMsgOf : String → String) (jsonStackOf : String → Option String)
    (onOk : Option JsVal → ToolResponse) :
    publicApiClassify r = .parseFailure r.body ∧
    toolWrap (outcomeToThrown jsonMsgOf jsonStackOf (publicApiClassify r)) onOk =
      { content := [jsonStringify (.obj
          [("error", .str ("Error: " ++ jsonMsgOf r.body)),
           ("details", .obj [("name", .str "SyntaxError"),
             ("message", .str (jsonMsgOf r.body)),
             ("stack", match jsonStackOf r.body with | some s => .str s | none => .undefined)])])]
        isError := some true } := by
  have h429 : (r.status == 429) = false := by
    simp only [beq_eq_false_iff_ne, ne_eq]
    omega
  have h401 : (r.status == 401) = false := by
    simp only [beq_eq_false_iff_ne, ne_eq]
    omega
  have h403 : (r.status == 403) = false := by
    simp only [beq_eq_false_iff_ne, ne_eq]
    omega
  have h204b : (r.status == 204) = false := by
    simp only [beq_eq_false_iff_ne, ne_eq]
    exact h204
  have hok : respOk r = true := by
    simp only [respOk, Bool.and_eq_true, decide_eq_true_eq]
    exact ⟨hlo, hhi⟩
  have hc : publicApiClassify r = .parseFailure r.body := by
    simp [publicApiClassify, h429, h401, h403, h204b, hok, hbody]
  refine ⟨hc, ?_⟩
  rw [hc]
  simp [toolWrap, outcomeToThrown, formatError, formatErrorForLogging]

/-- Witness for C4 at a concrete unparseable 200 response. -/
theorem parse_failure_caught_nonexceptional_witness :
    publicApiClassify { status := 200, retryAfter := none, body := "($)" } =
      .parseFailure "($)" := by
  exact (parse_failure_caught_nonexceptional
    { status := 200, retryAfter := none, body := "($)" }
    (by decide) (by decide) (by decide) rfl (fun _ => "Unexpected token ( in JSON")
    (fun _ => none) (fun _ => { content := [], isError := none })).1

/-- C5: for every classified error, the user-visible result of a failed
operation is a normal value with `isError = true` whose text is the JSON
object with fields `error` (the message, `Error: `-prefixed and
` (retryable)`-suffixed exactly when the error is retryable) and
`details` (the flat log record `name, message, code, statusCode,
retryable`, extended with `retryAfterSeconds` for the rate-limited kind
and `details` for the invalid-input kind). -/
theorem formatError_shape (e : SegmentApiErr) :
    formatError (.segment e) =
      { content := [jsonStringify (.obj
          [("error", .str (claimErrorText e)), ("details", claimLogRecord e)])]
        isError := some true } := by
  simp [formatError, claimErrorText, claimLogRecord, formatErrorForLogging]

/-- The space-insertion pass distributes over concatenation. -/
theorem insertSpacesBeforeUpper_append (l1 l2 : List Char) :
    insertSpacesBeforeUpper (l1 ++ l2) =
      insertSpacesBeforeUpper l1 ++ insertSpacesBeforeUpper l2 := by
  induction l1 with
  | nil => rfl
  | cons c cs ih => simp [insertSpacesBeforeUpper, ih]

/-- A title-safe character is not whitespace. -/
theorem titleSafeChar_not_ws (c : Char) (h : titleSafeChar c = true) :
    c.isWhitespace = false := by
  simp only [titleSafeChar, Bool.and_eq_true, Bool.not_eq_true'] at h
  exact h.1.1

/-- A title-safe character stays non-whitespace after upcasing. -/
theorem titleSafeChar_toUpper_not_ws (c : Char) (h : titleSafeChar c = true) :
    c.toUpper.isWhitespace = false := by
  simp only [titleSafeChar, Bool.and_eq_true, Bool.not_eq_true'] at h
  exact h.1.2

/-- An uppercase title-safe character is fixed by `toUpper`. -/
theorem titleSafeChar_toUpper_fix (c : Char) (h : titleSafeChar c = true)
    (hu : c.isUpper = true) : c.toUpper = c := by
  simp only [titleSafeChar, Bool.and_eq_true, Bool.or_eq_true, Bool.not_eq_true',
    beq_iff_eq] at h
  rcases h.2 with h2 | h2
  · rw [hu] at h2
    exact absurd h2 (by simp)
  · exact h2

/-- Dropping trailing whitespace leaves a space-inserted title-safe tail
headed by a non-whitespace character unchanged: its last character is
never whitespace. -/
theorem trailing_trim_id (cs : List Char) (h : ∀ x ∈ cs, titleSafeChar x = true)
    (c' : Char) (hc' : c'.isWhitespace = false) :
    ((c' :: insertSpacesBeforeUpper cs).reverse.dropWhile Char.isWhitespace).reverse
      = c' :: insertSpacesBeforeUpper cs := by
  induction cs using List.reverseRecOn with
  | nil => simp [insertSpacesBeforeUpper, List.dropWhile, hc']
  | append_singleton l a ih =>
    have ha : titleSafeChar a = true := h a (by simp)
    have haw : a.isWhitespace = false := titleSafeChar_not_ws a ha
    rw [insertSpacesBeforeUpper_append]
    by_cases hu : a.isUpper = true
    · simp [insertSpacesBeforeUpper, hu, List.dropWhile, haw]
    · simp only [Bool.not_eq_true] at hu
      simp [insertSpacesBeforeUpper, hu, List.dropWhile, haw]

/-- On keys of title-safe characters (camelCase identifiers in
particular), the code-side `formatKey` computes exactly the specified
camelCase to spaced Title Case conversion. -/
theorem formatKey_eq_titleCase (k : String) (h : ∀ c ∈ k.data, titleSafeChar c = true) :
    formatKey k = titleCaseKeySpec k := by
  unfold formatKey titleCaseKeySpec
  cases hk : k.data with
  | nil => rfl
  | cons c cs =>
    have hc : titleSafeChar c = true := h c (by rw [hk]; exact List.mem_cons_self c cs)
    have hcs : ∀ x ∈ cs, titleSafeChar x = true := fun x hx =>
      h x (by rw [hk]; exact List.mem_cons_of_mem _ hx)
    by_cases hu : c.isUpper = true
    · have hsp : (' ' : Char).toUpper = ' ' := rfl
      have hwsp : (' ' : Char).isWhitespace = true := rfl
      simp only [insertSpacesBeforeUpper, hu, if_pos, List.cons_append, List.nil_append,
        upcaseFirstChar, trimCharsWs, List.dropWhile, hsp, hwsp, titleSafeChar_not_ws c hc,
        titleSafeChar_toUpper_fix c hc hu]
      rw [trailing_trim_id cs hcs c (titleSafeChar_not_ws c hc)]
    · simp only [Bool.not_eq_true] at hu
      simp only [insertSpacesBeforeUpper, hu, if_neg, Bool.false_eq_true, List.cons_append,
        List.append_eq, List.nil_append, upcaseFirstChar, trimCharsWs, List.dropWhile,
        titleSafeChar_toUpper_not_ws c hc]
      rw [trailing_trim_id cs hcs c.toUpper (titleSafeChar_toUpper_not_ws c hc)]

/-- C9: for every single object whose keys consist of title-safe
characters (camelCase identifiers), tabular rendering produces the
heading from the singularized, capitalized resource kind followed, per
top-level field, by a `**Key:** value` line for scalar fields (key in
spaced Title Case: a space before each internal uppercase letter, first
character capitalized), a labelled fenced block with the structured
serialization for nested object/array fields, and nothing at all for
`null`/absent fields. -/
theorem singleObject_tabular (fields : List (String × JsVal)) (et : String)
    (h : ∀ kv ∈ fields, ∀ c ∈ (kv.1 : String).data, titleSafeChar c = true) :
    formatObjectAsMarkdown fields et =
      String.intercalate "\n"
        (["## " ++ capitalize (stripTrailingS et), ""] ++
          (fields.map specObjFieldLines).flatten) := by
  unfold formatObjectAsMarkdown
  have hmap : fields.map objFieldLines = fields.map specObjFieldLines := by
    apply List.map_congr_left
    intro kv hkv
    have hk : formatKey kv.1 = titleCaseKeySpec kv.1 :=
      formatKey_eq_titleCase kv.1 (h kv hkv)
    unfold objFieldLines specObjFieldLines
    cases kv.2 <;> simp [hk]
  rw [hmap]

/-- Witness for C9 at the specified example object and resource kind. -/
theorem singleObject_tabular_witness :
    formatObjectAsMarkdown
      [("id", .str "abc"), ("name", .str "Widget"), ("enabled", .bool true),
        ("nested", .obj [("x", .num (.int 1))])] "source" =
      "## Source\n\n**Id:** abc\n**Name:** Widget\n**Enabled:** true\n**Nested:**\n\x60\x60\x60json\n\x7b\n  \"x\": 1\n\x7d\n\x60\x60\x60" := by
  rw [singleObject_tabular _ "source" (by decide)]
  simp only [List.map, specObjFieldLines, jsToString, jsonStringify, jsonStringifyAt,
    jsonMembersOut]
  rfl

/-- A string whose first character is a given non-pipe character cannot
begin with the table pipe. -/
theorem ne_pipe_of_head_char (s : String) (c : Char) (h : s.data.head? = some c)
    (hc : (c == '|') = false) : s.data.head? ≠ some '|' := by
  rw [h]
  intro he
  injection he with he2
  rw [he2] at hc
  simp at hc

/-- C7: for every paginated collection whose items array is empty,
tabular rendering emits exactly the heading derived from the resource
kind, the summary line showing count 0 (with the total when
`totalEntries` is present), the more-available line only when a cursor
is set, and the single no-items line — and none of the emitted lines is
a table header or separator row (none begins with `|`). -/
theorem emptyPaginated_noTable (fields : List (String × JsVal)) (et : String)
    (hdata : jsGet fields "data" = .arr []) :
    formatPaginatedAsMarkdown fields et =
      String.intercalate "\n" (specEmptyCollectionLines fields et) ∧
    ∀ l ∈ specEmptyCollectionLines fields et, l.data.head? ≠ some '|' := by
  constructor
  · unfold formatPaginatedAsMarkdown specEmptyCollectionLines paginatedItems
    rw [hdata]
    simp only [List.length_nil]
    rw [show (toString (0 : Nat)) = "0" from rfl]
    simp only [String.append_assoc]
    rw [show (" | **Showing:** " ++ "0" : String) = " | **Showing:** 0" from rfl,
      show ("**Showing:** " ++ "0" : String) = "**Showing:** 0" from rfl]
    simp
  · intro l hl
    unfold specEmptyCollectionLines at hl
    simp only [List.mem_append, List.mem_cons, List.not_mem_nil, or_false] at hl
    rcases hl with ((h1 | h1 | h1) | h1) | (h1 | h1)
    · rw [h1]
      exact ne_pipe_of_head_char _ '#' rfl rfl
    · rw [h1]
      intro he
      rw [show ("" : String).data.head? = (none : Option Char) from rfl] at he
      exact Option.noConfusion he
    · rw [h1]
      by_cases hc : jsIsUndefined (jsOptChainProp (jsGet fields "pagination") "totalEntries") = true
      · rw [if_pos hc]
        exact ne_pipe_of_head_char _ '*' rfl rfl
      · rw [if_neg hc]
        exact ne_pipe_of_head_char _ '*' rfl rfl
    · by_cases hc : jsTruthy (jsOptChainProp (jsGet fields "pagination") "next") = true
      · rw [if_pos hc] at h1
        simp only [List.mem_singleton] at h1
        rw [h1]
        exact ne_pipe_of_head_char _ '*' rfl rfl
      · rw [if_neg hc] at h1
        exact absurd h1 (List.not_mem_nil l)
    · rw [h1]
      intro he
      rw [show ("" : String).data.head? = (none : Option Char) from rfl] at he
      exact Option.noConfusion he
    · rw [h1]
      exact ne_pipe_of_head_char _ '_' rfl rfl

/-- Witness for C7 at a concrete empty `sources` collection. -/
theorem emptyPaginated_noTable_witness :
    formatPaginatedAsMarkdown [("data", .arr [])] "sources" =
      "## Sources\n\n**Showing:** 0\n\n_No items found._" := by
  rw [(emptyPaginated_noTable [("data", .arr [])] "sources" rfl).1]
  rfl

/-- C8: for every non-empty list rendered by the generic fallback table,
the columns are exactly the first five keys of the first item in their
original order (all of them when there are fewer than five), and every
row renders a missing (`undefined`) cell as `-`. -/
theorem genericTable_firstFiveKeys (first : List (String × JsVal)) (rest : List JsVal) :
    formatGenericTable (.obj first :: rest) =
      String.intercalate "\n"
        (specGenericTableLines ((first.map Prod.fst).take 5) (.obj first :: rest)) ∧
    ∀ it ∈ rest, ∀ k ∈ (first.map Prod.fst).take 5,
      jsGetProp it k = .undefined → specGenericCell it k = "-" := by
  constructor
  · unfold formatGenericTable specGenericTableLines specGenericCell jsKeys
    rfl
  · intro it _ k _ hk
    unfold specGenericCell
    rw [hk]
    simp [jsNullish, jsToString]

/-- Witness for C8 at the specified six-key example. -/
theorem genericTable_firstFiveKeys_witness :
    formatGenericTable
      [.obj [("a", .num (.int 1)), ("b", .num (.int 2)), ("c", .num (.int 3)),
        ("d", .num (.int 4)), ("e", .num (.int 5)), ("f", .num (.int 6))]] =
      "| a | b | c | d | e |\n|---|---|---|---|---|\n| 1 | 2 | 3 | 4 | 5 |" := by
  rw [(genericTable_firstFiveKeys
    [("a", .num (.int 1)), ("b", .num (.int 2)), ("c", .num (.int 3)),
      ("d", .num (.int 4)), ("e", .num (.int 5)), ("f", .num (.int 6))] []).1]
  simp [specGenericTableLines, specGenericCell, List.find?, jsGetProp, jsGet, jsNullish,
    jsToString, jsNumToString]
  rfl

/-- `URLSearchParams.set` on a list free of the key appends the entry. -/
theorem urlParamsSet_fresh (acc : List (String × String)) (k v : String)
    (h : ∀ p ∈ acc, p.1 ≠ k) : urlParamsSet acc k v = acc ++ [(k, v)] := by
  induction acc with
  | nil => rfl
  | cons p rest ih =>
    obtain ⟨k0, v0⟩ := p
    have hp : (k0 == k) = false := by
      simp only [beq_eq_false_iff_ne, ne_eq]
      exact h (k0, v0) (List.mem_cons_self _ _)
    simp only [urlParamsSet, hp, Bool.false_eq_true, if_false, List.cons_append,
      List.cons.injEq, true_and]
    exact ih (fun q hq => h q (List.mem_cons_of_mem _ hq))

/-- The parameter loop of `buildQueryString`, over keys that are new to
the accumulator (JS object literals have distinct keys), appends exactly
the stringified non-nullish entries in order. -/
theorem buildQuery_foldl (l : List (String × JsVal)) (acc : List (String × String))
    (hnd : (l.map Prod.fst).Nodup)
    (hfresh : ∀ p ∈ acc, ∀ kv ∈ l, p.1 ≠ kv.1) :
    l.foldl (fun acc kv =>
      match kv.2 with
      | .undefined => acc
      | .null => acc
      | v => urlParamsSet acc kv.1 (jsToString v)) acc =
    acc ++ (l.filter (fun kv => !(jsIsNullish kv.2))).map
      (fun kv => (kv.1, jsToString kv.2)) := by
  induction l generalizing acc with
  | nil => simp
  | cons kv rest ih =>
    obtain ⟨k0, v0⟩ := kv
    rw [List.map_cons, List.nodup_cons] at hnd
    obtain ⟨hk0, hnd2⟩ := hnd
    have hfresh2 : ∀ p ∈ acc, ∀ kv ∈ rest, p.1 ≠ kv.1 := fun p hp kv hkv =>
      hfresh p hp kv (List.mem_cons_of_mem _ hkv)
    have hfreshK : ∀ p ∈ acc, p.1 ≠ k0 := fun p hp =>
      hfresh p hp (k0, v0) (List.mem_cons_self _ _)
    have hset : ∀ (s : String), urlParamsSet acc k0 s = acc ++ [(k0, s)] :=
      fun s => urlParamsSet_fresh acc k0 s hfreshK
    have hfresh3 : ∀ (s : String), ∀ p ∈ acc ++ [(k0, s)], ∀ kv ∈ rest, p.1 ≠ kv.1 := by
      intro s p hp kv0 hkv
      rcases List.mem_append.mp hp with hp1 | hp1
      · exact hfresh2 p hp1 kv0 hkv
      · simp only [List.mem_singleton] at hp1
        rw [hp1]
        intro he
        exact hk0 (he ▸ List.mem_map_of_mem Prod.fst hkv)
    cases v0 with
    | undefined =>
      simp only [List.foldl_cons, List.filter_cons, jsIsNullish, Bool.not_true,
        Bool.false_eq_true, if_false]
      exact ih acc hnd2 hfresh2
    | null =>
      simp only [List.foldl_cons, List.filter_cons, jsIsNullish, Bool.not_true,
        Bool.false_eq_true, if_false]
      exact ih acc hnd2 hfresh2
    | bool b =>
      simp only [List.foldl_cons, List.filter_cons, jsIsNullish, Bool.not_false, if_true]
      rw [hset, ih (acc ++ [(k0, jsToString (.bool b))]) hnd2 (hfresh3 _), List.map_cons,
        List.append_assoc]
      rfl
    | num n =>
      simp only [List.foldl_cons, List.filter_cons, jsIsNullish, Bool.not_false, if_true]
      rw [hset, ih (acc ++ [(k0, jsToString (.num n))]) hnd2 (hfresh3 _), List.map_cons,
        List.append_assoc]
      rfl
    | str s =>
      simp only [List.foldl_cons, List.filter_cons, jsIsNullish, Bool.not_false, if_true]
      rw [hset, ih (acc ++ [(k0, jsToString (.str s))]) hnd2 (hfresh3 _), List.map_cons,
        List.append_assoc]
      rfl
    | arr a =>
      simp only [List.foldl_cons, List.filter_cons, jsIsNullish, Bool.not_false, if_true]
      rw [hset, ih (acc ++ [(k0, jsToString (.arr a))]) hnd2 (hfresh3 _), List.map_cons,
        List.append_assoc]
      rfl
    | obj o =>
      simp only [List.foldl_cons, List.filter_cons, jsIsNullish, Bool.not_false, if_true]
      rw [hset, ih (acc ++ [(k0, jsToString (.obj o))]) hnd2 (hfresh3 _), List.map_cons,
        List.append_assoc]
      rfl

/-- `String.intercalate.go` only ever extends its accumulator. -/
theorem intercalate_go_split (sep : String) (xs : List String) (acc : String) :
    ∃ t : String, String.intercalate.go acc sep xs = acc ++ t := by
  induction xs generalizing acc with
  | nil => exact ⟨"", by simp [String.intercalate.go]⟩
  | cons a as ih =>
    obtain ⟨t, ht⟩ := ih (acc ++ sep ++ a)
    refine ⟨sep ++ a ++ t, ?_⟩
    rw [String.intercalate.go, ht]
    simp [String.append_assoc]

/-- An intercalation of a non-empty list is at least as long as its
head. -/
theorem intercalate_head_le_length (sep x : String) (xs : List String) :
    x.length ≤ (String.intercalate sep (x :: xs)).length := by
  obtain ⟨t, ht⟩ := intercalate_go_split sep xs x
  rw [String.intercalate, ht, String.length_append]
  omega

/-- C10: for every parameter mapping with distinct keys, the produced
query string serializes exactly the entries whose values are neither
`undefined` nor `null`, each value stringified (and form-encoded); when
the mapping is absent or no entry survives the filter, the result is the
empty string with no leading `?`. -/
theorem buildQueryString_filters (l : List (String × JsVal))
    (hnd : (l.map Prod.fst).Nodup) :
    buildQueryString none = "" ∧
    buildQueryString (some l) =
      (if (l.filter (fun kv => !(jsIsNullish kv.2))).isEmpty then ""
       else "?" ++ String.intercalate "&"
         ((l.filter (fun kv => !(jsIsNullish kv.2))).map
           (fun kv => formEncode kv.1 ++ "=" ++ formEncode (jsToString kv.2)))) := by
  refine ⟨rfl, ?_⟩
  have hred : buildQueryString (some l) =
      (if (urlParamsRender (l.foldl (fun acc kv =>
          match kv.2 with
          | .undefined => acc
          | .null => acc
          | v => urlParamsSet acc kv.1 (jsToString v)) []) == "") = true then ""
       else "?" ++ urlParamsRender (l.foldl (fun acc kv =>
          match kv.2 with
          | .undefined => acc
          | .null => acc
          | v => urlParamsSet acc kv.1 (jsToString v)) [])) := rfl
  rw [hred, buildQuery_foldl l [] hnd (by simp), List.nil_append]
  unfold urlParamsRender
  rw [List.map_map]
  cases hk : l.filter (fun kv => !(jsIsNullish kv.2)) with
  | nil => rfl
  | cons kv t =>
    simp only [List.map_cons, Function.comp_def]
    have hne : (String.intercalate "&"
        ((formEncode kv.1 ++ "=" ++ formEncode (jsToString kv.2)) ::
          t.map (fun x => formEncode x.1 ++ "=" ++ formEncode (jsToString x.2))) == "")
        = false := by
      rw [beq_eq_false_iff_ne]
      intro he
      have hlen := intercalate_head_le_length "&"
        (formEncode kv.1 ++ "=" ++ formEncode (jsToString kv.2))
        (t.map (fun x => formEncode x.1 ++ "=" ++ formEncode (jsToString x.2)))
      rw [he, String.length_append, String.length_append] at hlen
      rw [show ("=" : String).length = 1 from rfl, show ("" : String).length = 0 from rfl]
        at hlen
      omega
    simp only [hne, Bool.false_eq_true, if_false, List.isEmpty_cons]

/-- Witness for C10 at a concrete parameter mapping with a dropped
`undefined` entry and a form-encoded value. -/
theorem buildQueryString_filters_witness :
    buildQueryString
      (some [("count", .num (.int 20)), ("cursor", .undefined), ("q", .str "a b")]) =
      "?count=20&q=a+b" := by
  rw [(buildQueryString_filters
    [("count", .num (.int 20)), ("cursor", .undefined), ("q", .str "a b")] (by decide)).2]
  simp [jsIsNullish, jsToString, jsNumToString]
  rfl
